import Mathlib

/-!
Verification of the `middlewarechain` Go package.

The package exports a single function (src/chain.go):

  type Middleware func(http.HandlerFunc) http.HandlerFunc

  func Chain(h http.HandlerFunc, middlewares ...Middleware) (aggregateHandler http.HandlerFunc) {
      aggregateHandler = h
      for i := len(middlewares) - 1; i >= 0; i-- {
          aggregateHandler = middlewares[i](aggregateHandler)
      }
      return
  }

The composer never inspects, calls, or validates the handler value at
composition time, so it is embedded generically over the handler type `H`;
`http.HandlerFunc` is modelled concretely below as `HandlerFn`
(response-body state passing plus a request carrying context values), and a
Go `nil` handler is modelled by instantiating `H` at an `Option` type.
The variadic middleware parameter is modelled as a `List`.
-/

namespace MiddlewareChain

/-- Model of `*http.Request`: only the context key/value pairs are relevant
to the handlers exercised by this package's tests. -/
structure Request where
  ctx : List (String × String)
deriving DecidableEq, Repr

/-- Model of `http.HandlerFunc`: a handler receives the response-writer
state (the body written so far) and the request, and returns the new
response-writer state. -/
abbrev HandlerFn : Type := String → Request → String

/-- Model of `type Middleware func(http.HandlerFunc) http.HandlerFunc`. -/
abbrev Middleware : Type := HandlerFn → HandlerFn

/-- Embedding of the loop body of `Chain`:
`for i := len(middlewares) - 1; i >= 0; i--`.
The `Nat` argument is the fuel `i + 1`, i.e. `chainLoop ms (i+1) agg`
performs the iteration with index `i` (`agg = ms[i](agg)`) and then
continues with the smaller indices.  In-bounds indexing `middlewares[i]`
is written `getD i id`; `Chain` only ever reaches in-bounds indices
(proved via `chainLoopE` below). -/
def chainLoop {H : Type} (middlewares : List (H → H)) : Nat → H → H
  | 0, aggregateHandler => aggregateHandler
  | i + 1, aggregateHandler =>
      chainLoop middlewares i ((middlewares.getD i id) aggregateHandler)

/-- Embedding of `func Chain(h http.HandlerFunc, middlewares ...Middleware)
(aggregateHandler http.HandlerFunc)`: start from `aggregateHandler = h` and
run the reverse loop from index `len(middlewares) - 1` down to `0`. -/
def Chain {H : Type} (h : H) (middlewares : List (H → H)) : H :=
  chainLoop middlewares middlewares.length h

/-- Variant of `chainLoop` in which the slice access `middlewares[i]` is
modelled as fallible (`none` = out-of-bounds panic).  Used to show that the
composition loop has no failure mode: it never indexes out of bounds. -/
def chainLoopE {H : Type} (middlewares : List (H → H)) : Nat → H → Option H
  | 0, aggregateHandler => some aggregateHandler
  | i + 1, aggregateHandler =>
      match middlewares[i]? with
      | some m => chainLoopE middlewares i (m aggregateHandler)
      | none => none

/-- `Chain` with fallible indexing. -/
def ChainE {H : Type} (h : H) (middlewares : List (H → H)) : Option H :=
  chainLoopE middlewares middlewares.length h

/-- A middleware for trace handlers over `List Nat` that records its label
`i` on the trace and then calls the next handler — models a middleware that
writes a marker and delegates. -/
def tagMid (i : Nat) : (List Nat → List Nat) → (List Nat → List Nat) :=
  fun next t => next (t ++ [i])

/-- Treating handler values themselves as logs, `wrapTag i` is a middleware
whose wrapping step records the label `i`; composing with these observes
the order in which `Chain` applies the middleware functions. -/
def wrapTag (i : Nat) : List Nat → List Nat := fun acc => acc ++ [i]

/-- A body-writing handler in the style of the package tests: appends `s`
to the response body, ignoring the request. -/
def writeBody (s : String) : HandlerFn := fun w _ => w ++ s

/-- The `prefixMiddleware` helper of the package tests: writes `p` to the
response body, then calls the next handler. -/
def prefixMid (p : String) : Middleware :=
  fun next => fun w r => next (w ++ p) r

/-- Handlers over `Except`: the response-body state threaded through
`Except String`, so that a Go panic during invocation is modelled as
`Except.error`. -/
abbrev HandlerX : Type := String → Except String String

/-- A terminal handler that panics with message `e`. -/
def raiseH (e : String) : HandlerX := fun _ => Except.error e

/-- A pass-through middleware: transforms the body state with `pre`, then
calls the next handler; it installs no recovery boundary, so an error from
`next` is returned unmodified. -/
def passMid (pre : String → String) : HandlerX → HandlerX :=
  fun next w => next (pre w)

/-- A middleware that panics with message `e` without calling `next`. -/
def raiseMid (e : String) : HandlerX → HandlerX :=
  fun _ => fun _ => Except.error e

/- ### Helper lemmas -/

/-- Peeling the head middleware off the loop: running `n + 1` iterations
over `m :: ms` applies `m` last (outermost), around `n` iterations over
`ms`. -/
theorem chainLoop_cons {H : Type} (m : H → H) (ms : List (H → H)) (n : Nat) (agg : H) :
    chainLoop (m :: ms) (n + 1) agg = m (chainLoop ms n agg) := by
  induction n generalizing agg with
  | zero => rfl
  | succ k ih =>
      show chainLoop (m :: ms) (k + 1) (((m :: ms).getD (k + 1) id) agg)
          = m (chainLoop ms k ((ms.getD k id) agg))
      rw [List.getD_cons_succ]
      exact ih _

/-- The reverse loop computes the right fold of application over the
middleware list. -/
theorem chain_eq_foldr {H : Type} (h : H) (ms : List (H → H)) :
    Chain h ms = ms.foldr (fun m acc => m acc) h := by
  induction ms with
  | nil => rfl
  | cons m rest ih =>
      show chainLoop (m :: rest) (rest.length + 1) h = m (rest.foldr (fun m acc => m acc) h)
      rw [chainLoop_cons, ← ih]
      rfl

/-- First-supplied middleware is the outermost wrapper. -/
theorem chain_cons {H : Type} (h : H) (m : H → H) (ms : List (H → H)) :
    Chain h (m :: ms) = m (Chain h ms) := by
  rw [chain_eq_foldr, chain_eq_foldr]
  rfl

/-- Invoking a chain of marker middlewares visits every label of `is`, in
the supplied order, before the terminal handler. -/
theorem chain_tagMid (h : List Nat → List Nat) (is : List Nat) (t : List Nat) :
    Chain h (is.map tagMid) t = h (t ++ is) := by
  induction is generalizing t with
  | nil => simp [Chain, chainLoop]
  | cons i rest ih =>
      rw [List.map_cons, chain_cons]
      show Chain h (rest.map tagMid) (t ++ [i]) = h (t ++ i :: rest)
      rw [ih]
      simp

/-- Composing with log-valued handlers records the wrapping order: the
labels appear in reverse of the supplied order, each exactly once. -/
theorem chain_wrapTag (is : List Nat) (acc : List Nat) :
    Chain acc (is.map wrapTag) = acc ++ is.reverse := by
  induction is generalizing acc with
  | nil => simp [Chain, chainLoop]
  | cons i rest ih =>
      rw [List.map_cons, chain_cons, ih]
      show (acc ++ rest.reverse) ++ [i] = acc ++ (i :: rest).reverse
      simp

/-- The loop with fallible indexing succeeds whenever the fuel does not
exceed the list length, and agrees with the total loop. -/
theorem chainLoopE_eq_some {H : Type} (ms : List (H → H)) (n : Nat) (agg : H)
    (hn : n ≤ ms.length) :
    chainLoopE ms n agg = some (chainLoop ms n agg) := by
  induction n generalizing agg with
  | zero => rfl
  | succ k ih =>
      have hk : k < ms.length := Nat.lt_of_succ_le hn
      show (match ms[k]? with
            | some m => chainLoopE ms k (m agg)
            | none => none)
          = some (chainLoop ms k ((ms.getD k id) agg))
      rw [List.getElem?_eq_getElem hk]
      rw [List.getD_eq_getElem ms id hk]
      exact ih _ (Nat.le_of_lt hk)

/-- An error raised by the terminal handler propagates unmodified through
any chain of pass-through middlewares. -/
theorem chain_error_propagates (e : String) (pres : List (String → String)) (w : String) :
    Chain (raiseH e) (pres.map passMid) w = Except.error e := by
  induction pres generalizing w with
  | nil => rfl
  | cons p rest ih =>
      rw [List.map_cons, chain_cons]
      exact ih _

/- ### Claim theorems -/

/-- C1: Ordering rule — for terminal handler `h` and middlewares
`[m1, ..., mn]`, `Chain` returns `m1 (m2 (... mn h ...))`: the result is
the right fold from the end of the list backward, so the first-supplied
middleware is the outermost layer; exhibited concretely at three
middlewares. -/
theorem c1_ordering_rule {H : Type} (h : H) (ms : List (H → H)) (m1 m2 m3 : H → H) :
    Chain h ms = ms.foldr (fun m acc => m acc) h ∧
    Chain h [m1, m2, m3] = m1 (m2 (m3 h)) :=
  ⟨chain_eq_foldr h ms, rfl⟩

/-- C2: Identity law — `Chain h` with zero middlewares behaves exactly like
`h` on every response-writer state and every request. -/
theorem c2_identity_law (h : HandlerFn) (w : String) (r : Request) :
    Chain h [] w r = h w r := rfl

/-- C3: Composition consistency — `Chain h [m1, m2]` equals the manual
nesting `Chain (Chain h [m2]) [m1]`. -/
theorem c3_composition_consistency {H : Type} (h : H) (m1 m2 : H → H) :
    Chain h [m1, m2] = Chain (Chain h [m2]) [m1] := rfl

/-- C4: Short-circuit law — if `m1` ignores the inner handler it is given,
then `Chain h [m1, m2]` is independent of both `m2` and `h` (so neither is
ever executed), and equals `m1` applied to anything: only `m1`'s own
effects are observable. -/
theorem c4_short_circuit {H : Type} (m1 : H → H)
    (hsc : ∀ n n' : H, m1 n = m1 n')
    (h h' : H) (m2 m2' : H → H) :
    Chain h [m1, m2] = Chain h' [m1, m2'] ∧ Chain h [m1, m2] = m1 h := by
  constructor
  · show m1 (m2 h) = m1 (m2' h')
    exact hsc _ _
  · show m1 (m2 h) = m1 h
    exact hsc _ _

/-- Witness for C4 at a concrete constant middleware. -/
theorem c4_short_circuit_witness :
    Chain (0 : Nat) [fun _ => 7, Nat.succ] = Chain 5 [fun _ => 7, fun n => n * 2] ∧
    Chain (0 : Nat) [fun _ => 7, Nat.succ] = (fun _ => 7) 0 :=
  c4_short_circuit (fun _ => 7) (fun _ _ => rfl) 0 5 Nat.succ (fun n => n * 2)

/-- C5: No reordering, deduplication, or filtering — for every label list
`is` (duplicates allowed) the composed handler visits exactly the labels of
`is`, in the supplied order, before reaching the terminal handler. -/
theorem c5_no_reordering (h : List Nat → List Nat) (is : List Nat) (t : List Nat) :
    Chain h (is.map tagMid) t = h (t ++ is) :=
  chain_tagMid h is t

/-- C6: Concrete scenarios — zero middlewares produce `"Handler"`; one
prefix middleware produces `"Middleware --> Handler"`; two prefix
middlewares in supplied order produce
`"First Middleware -->Second Middleware -->Handler"`. -/
theorem c6_concrete_scenarios (r : Request) :
    Chain (writeBody "Handler") [] "" r = "Handler" ∧
    Chain (writeBody "Handler") [prefixMid "Middleware --> "] "" r
      = "Middleware --> Handler" ∧
    Chain (writeBody "Handler")
        [prefixMid "First Middleware -->", prefixMid "Second Middleware -->"] "" r
      = "First Middleware -->Second Middleware -->Handler" :=
  ⟨rfl, rfl, rfl⟩

/-- Witness for C6 at a concrete request. -/
theorem c6_concrete_scenarios_witness :
    Chain (writeBody "Handler") [] "" ⟨[]⟩ = "Handler" ∧
    Chain (writeBody "Handler") [prefixMid "Middleware --> "] "" ⟨[]⟩
      = "Middleware --> Handler" ∧
    Chain (writeBody "Handler")
        [prefixMid "First Middleware -->", prefixMid "Second Middleware -->"] "" ⟨[]⟩
      = "First Middleware -->Second Middleware -->Handler" :=
  c6_concrete_scenarios ⟨[]⟩

/-- C7: Transparent failure propagation — a panic raised by the terminal
handler passes unmodified through any chain of pass-through middlewares,
and a panic raised by a middleware that short-circuits is the composed
result, with no recovery boundary introduced by `Chain`. -/
theorem c7_failure_propagation (e : String) (pres : List (String → String))
    (h : HandlerX) (ms : List (HandlerX → HandlerX)) (w : String) :
    Chain (raiseH e) (pres.map passMid) w = Except.error e ∧
    Chain h (raiseMid e :: ms) w = Except.error e := by
  refine ⟨chain_error_propagates e pres w, ?_⟩
  rw [chain_cons]
  rfl

/-- C8: Composition-time totality — the loop with fallible indexing never
fails for any handler and any middleware list: composition performs no
validation and always returns the pure fold result. -/
theorem c8_composition_total {H : Type} (h : H) (ms : List (H → H)) :
    ChainE h ms = some (Chain h ms) :=
  chainLoopE_eq_some ms ms.length h (Nat.le_refl _)

/-- C9: Loop/fold refinement — the imperative reverse loop equals the right
fold of application, and composing with log-valued handlers shows each
middleware function is applied exactly once, in reverse index order. -/
theorem c9_loop_foldr_refinement {H : Type} (h : H) (ms : List (H → H)) (is : List Nat) :
    chainLoop ms ms.length h = ms.foldr (fun m acc => m acc) h ∧
    Chain ([] : List Nat) (is.map wrapTag) = is.reverse :=
  ⟨chain_eq_foldr h ms, chain_wrapTag is []⟩

/-- C10: Exact value return on empty list — with zero middlewares `Chain`
returns the very handler value it was given, including a `nil` handler
(modelled as `none`) passed through unchanged. -/
theorem c10_exact_value_empty {H : Type} (h : H) :
    Chain h [] = h ∧ Chain (none : Option HandlerFn) [] = none :=
  ⟨rfl, rfl⟩

end MiddlewareChain
